import Mathlib

/-!
# Verification of the Odoo-Clinic flowchart annotation store

Shallow embedding of the state and handlers of
`src/odoo-clinic-flowchart.tsx` (a React component).  The two pieces of
React state,

* `stepData : Record<string, StepData>` — the annotation store, and
* `subRectangles : Record<string, SubRectangle[]>` — the sub-node store,

are modelled as functions `String → Option _`; a JS object spread
`{...prev, [k]: v}` becomes `mapSet`, `delete obj[k]` becomes `mapDel`.
Each event handler becomes a pure function from the state it reads to the
state it writes; values the handler obtains from the environment
(`Date.now()`, mouse coordinates, the anchor step's position) become
explicit arguments.
-/

namespace Clinic

/-- `interface StepData { deadline?: string; notes?: string }` — an optional
field is `Option String`, `undefined` is `none`. -/
structure StepData where
  deadline : Option String := none
  notes : Option String := none
  deriving Repr, DecidableEq

/-- `interface SubRectangle { id; label; x; y; deadline?; notes? }`. -/
structure SubRectangle where
  id : String
  label : String
  x : Int
  y : Int
  deadline : Option String := none
  notes : Option String := none
  deriving Repr, DecidableEq

/-- The `stepData` React state: `Record<string, StepData>`. -/
def StepMap : Type := String → Option StepData

/-- The `subRectangles` React state: `Record<string, SubRectangle[]>`. -/
def SubMap : Type := String → Option (List SubRectangle)

/-- `{...prev, [k]: v}` — insert or overwrite key `k`. -/
def mapSet {α : Type} (m : String → Option α) (k : String) (v : α) :
    String → Option α :=
  fun j => if j = k then some v else m j

/-- `delete obj[k]` on a copy — remove key `k`. -/
def mapDel {α : Type} (m : String → Option α) (k : String) :
    String → Option α :=
  fun j => if j = k then none else m j

/-- The empty record / initial state `{}`. -/
def mapEmpty {α : Type} : String → Option α := fun _ => none

/-- The whitespace set of JS `String.prototype.trim` restricted to ASCII
(tab, LF, VT, FF, CR, space). -/
def isJsWhitespace (c : Char) : Bool :=
  c = ' ' ∨ c = '\t' ∨ c = '\n' ∨ c = '\r' ∨ c = '\x0b' ∨ c = '\x0c'

/-- `s.trim()`: strip leading and trailing whitespace.  Defined over the
character list so that it evaluates by kernel reduction. -/
def jsTrim (s : String) : String :=
  ⟨((s.data.dropWhile isJsWhitespace).reverse.dropWhile isJsWhitespace).reverse⟩

/-- `getStepKey(module, stepId)` = `` `${module}-${stepId}` ``. -/
def getStepKey (module stepId : String) : String :=
  module ++ "-" ++ stepId

/-- `getSubRectKey(stepKey, subRectId)` = `` `${stepKey}-sub-${subRectId}` ``. -/
def getSubRectKey (stepKey subRectId : String) : String :=
  stepKey ++ "-sub-" ++ subRectId

/-- `handleSave` (lines 99–128): trims both inputs, keeps only non-empty
fields, deletes the entry when both are empty, otherwise replaces it
wholesale.  In the source the key comes from the open edit session
(`editingStep.module`, `editingStep.stepId`); here they are arguments. -/
def handleSave (m : StepMap) (module stepId deadlineInput notesInput : String) :
    StepMap :=
  let key := getStepKey module stepId
  let newDeadline : Option String :=
    if (jsTrim deadlineInput) ≠ "" then some (jsTrim deadlineInput) else none
  let newNotes : Option String :=
    if (jsTrim notesInput) ≠ "" then some (jsTrim notesInput) else none
  if newDeadline = none ∧ newNotes = none then
    mapDel m key
  else
    mapSet m key ⟨newDeadline, newNotes⟩

/-- `getStepData(module, stepId)` (lines 288–296): stored record or `{}`. -/
def getStepData (m : StepMap) (module stepId : String) : StepData :=
  (m (getStepKey module stepId)).getD {}

/-- `getSubRectData(stepKey, subRectId)` (lines 152–155). -/
def getSubRectData (m : StepMap) (stepKey subRectId : String) : StepData :=
  (m (getSubRectKey stepKey subRectId)).getD {}

/-- `handleDeleteSubRect(stepKey, subRectId)` (lines 233–244): filter the
sub-rect out of the parent's list; if the list becomes empty, delete the
parent key.  The handler updates only `subRectangles`. -/
def handleDeleteSubRect (s : SubMap) (stepKey subRectId : String) : SubMap :=
  let existing := (s stepKey).getD []
  let updated := existing.filter (fun sr => sr.id ≠ subRectId)
  if updated.length = 0 then
    mapDel s stepKey
  else
    mapSet s stepKey updated

/-- The full delete operation on both stores: `handleDeleteSubRect` calls
only `setSubRectangles`, so the annotation store `stepData` passes through
untouched. -/
def deleteSubRectOp (sd : StepMap) (s : SubMap) (stepKey subRectId : String) :
    StepMap × SubMap :=
  (sd, handleDeleteSubRect s stepKey subRectId)

/-- The "Add new" branch of `handleSaveSubRect` (lines 157–231, with
`editingSubRect.subRect === null`).  `now` is the value of `Date.now()`;
the new id is its decimal string.  Returns the updated
`(stepData, subRectangles)` pair. -/
def createSubRect (sd : StepMap) (s : SubMap) (stepKey label deadlineIn notesIn : String)
    (now : Nat) : StepMap × SubMap :=
  if (jsTrim label) = "" then (sd, s) else
  let existing := (s stepKey).getD []
  let newSubRect : SubRectangle :=
    { id := toString now
      label := (jsTrim label)
      x := 600 + (existing.length : Int) * 200
      y := 400 + (existing.length : Int) * 80
      deadline := if (jsTrim deadlineIn) ≠ "" then some (jsTrim deadlineIn) else none
      notes := if (jsTrim notesIn) ≠ "" then some (jsTrim notesIn) else none }
  let newKey := getSubRectKey stepKey newSubRect.id
  let newDeadline : Option String :=
    if (jsTrim deadlineIn) ≠ "" then some (jsTrim deadlineIn) else none
  let newNotes : Option String :=
    if (jsTrim notesIn) ≠ "" then some (jsTrim notesIn) else none
  let sd2 :=
    if newDeadline ≠ none ∨ newNotes ≠ none then
      mapSet sd newKey ⟨newDeadline, newNotes⟩
    else sd
  (sd2, mapSet s stepKey (existing ++ [newSubRect]))

/-- The "Update existing" branch of `handleSaveSubRect` (lines 157–231,
with `editingSubRect.subRect` set; `targetId` is its id).  Replaces the
derived annotation record per the empty-to-delete rule, then maps over the
parent's list replacing the matching sub-rect. -/
def updateSubRect (sd : StepMap) (s : SubMap) (stepKey targetId label deadlineIn notesIn : String) :
    StepMap × SubMap :=
  if (jsTrim label) = "" then (sd, s) else
  let existing := (s stepKey).getD []
  let subRectKey := getSubRectKey stepKey targetId
  let newDeadline : Option String :=
    if (jsTrim deadlineIn) ≠ "" then some (jsTrim deadlineIn) else none
  let newNotes : Option String :=
    if (jsTrim notesIn) ≠ "" then some (jsTrim notesIn) else none
  let sd2 :=
    if newDeadline = none ∧ newNotes = none then
      mapDel sd subRectKey
    else
      mapSet sd subRectKey ⟨newDeadline, newNotes⟩
  let s2 := mapSet s stepKey (existing.map (fun sr =>
    if sr.id = targetId then
      { sr with label := (jsTrim label), deadline := newDeadline, notes := newNotes }
    else sr))
  (sd2, s2)

/-- `handleSubRectDrag` (lines 262–281): while a drag is active, map over
the dragged key's list, clamping the new coordinates at 0.  `newX`/`newY`
are the mouse-derived coordinates; the dragged `(stepKey, id)` pair comes
from the `draggingSubRect` state. -/
def handleSubRectDrag (s : SubMap) (stepKey id : String) (newX newY : Int) : SubMap :=
  let existing := (s stepKey).getD []
  mapSet s stepKey (existing.map (fun sr =>
    if sr.id = id then { sr with x := max 0 newX, y := max 0 newY } else sr))

/-- One parent's half of the placement `useEffect` in `FlutterAppFlow`
(lines 1379–1409): if the parent's list is non-empty and some sub-rect is
still at the `(0,0)` sentinel, rewrite exactly those to an anchor-derived
position, `x = anchor.x + width + 30`, `y = anchor.y + idx * 90`.
`anchorW` is the value of `mainStep.width || 180`. -/
def resolvePlacement (s : SubMap) (key : String) (anchorX anchorY anchorW : Int) :
    SubMap :=
  let subs := (s key).getD []
  if subs.length > 0 ∧ subs.any (fun sr => sr.x = 0 ∧ sr.y = 0) then
    mapSet s key (subs.mapIdx (fun idx sr =>
      if sr.x = 0 ∧ sr.y = 0 then
        { sr with x := anchorX + anchorW + 30, y := anchorY + (idx : Int) * 90 }
      else sr))
  else s

/-- Outcome of `JSON.parse` on a stored snapshot: the parse can throw, or
produce a value (already typed here as the target mapping). -/
inductive ParseOutcome (α : Type) where
  | throws : ParseOutcome α
  | ok : α → ParseOutcome α

/-- Whether a `StepMap` has at least one key — `Object.keys(d).length > 0`.
Keys are not enumerable on a function model, so the witness set is passed
as the list of keys the parsed object holds. -/
def hasSomeKey (keys : List String) : Bool := keys.length > 0

/-- The load `useEffect` (lines 41–66), as a function from the two stored
snapshots to the initial `(stepData, subRectangles)` pair.  Both reads sit
in one `try` block, `workflowStepData` first: a throw while parsing it
aborts the block before `workflowSubRectangles` is read; a throw on the
second read keeps the already-applied `setStepData`.  `none` models a
missing storage key; `ParseOutcome.ok (keys, d)` carries the parsed
object's key list alongside the map (for the `Object.keys` test). -/
def loadFromStorage (stepSnap : Option (ParseOutcome (List String × StepMap)))
    (subSnap : Option (ParseOutcome SubMap)) : StepMap × SubMap :=
  match stepSnap with
  | some ParseOutcome.throws => (mapEmpty, mapEmpty)
  | some (ParseOutcome.ok (keys, d)) =>
      let sd := if hasSomeKey keys then d else mapEmpty
      match subSnap with
      | some ParseOutcome.throws => (sd, mapEmpty)
      | some (ParseOutcome.ok s) => (sd, s)
      | none => (sd, mapEmpty)
  | none =>
      match subSnap with
      | some ParseOutcome.throws => (mapEmpty, mapEmpty)
      | some (ParseOutcome.ok s) => (mapEmpty, s)
      | none => (mapEmpty, mapEmpty)

/-! ## JS `Date` model for `isOverdue`

Per ECMAScript, a date-only ISO string `"YYYY-MM-DD"` parses to **UTC**
midnight of that calendar date, while `today.setHours(0,0,0,0)` truncates
to **local** midnight.  Instants are epoch milliseconds (`Int`); a local
zone is its offset east of UTC in minutes (`tzOffsetMin`, so UTC+2 is 120
and UTC-5 is -300). -/

/-- Leap-year rule of the proleptic Gregorian calendar. -/
def isLeapYear (y : Nat) : Bool :=
  (y % 4 = 0 ∧ y % 100 ≠ 0) ∨ y % 400 = 0

/-- Days in a month (1–12). -/
def daysInMonth (y m : Nat) : Nat :=
  if m = 2 then (if isLeapYear y then 29 else 28)
  else if m = 4 ∨ m = 6 ∨ m = 9 ∨ m = 11 then 30
  else 31

/-- Civil date to days since 1970-01-01 (proleptic Gregorian). -/
def daysFromCivil (y m d : Int) : Int :=
  let y2 := y - (if m ≤ 2 then 1 else 0)
  let era := (if 0 ≤ y2 then y2 else y2 - 399) / 400
  let yoe := y2 - era * 400
  let mp := (m + 9) % 12
  let doy := (153 * mp + 2) / 5 + d - 1
  let doe := yoe * 365 + yoe / 4 - yoe / 100 + doy
  era * 146097 + doe - 719468

/-- Split a character list at every `'-'` (the shape `"a-b-c".split("-")`
produces). -/
def splitOnHyphens : List Char → List (List Char)
  | [] => [[]]
  | c :: rest =>
      if c = '-' then [] :: splitOnHyphens rest
      else
        match splitOnHyphens rest with
        | [] => [[c]]
        | h :: t => (c :: h) :: t

/-- Decimal value of a digit run. -/
def digitsToNat (cs : List Char) : Nat :=
  cs.foldl (fun acc c => acc * 10 + (c.toNat - 48)) 0

/-- Is `cs` a run of exactly `n` decimal digits? -/
def isDigitRun (cs : List Char) (n : Nat) : Bool :=
  cs.length = n ∧ cs.all Char.isDigit

/-- Parse `"YYYY-MM-DD"` (the extended ISO date-only form `Date` accepts),
yielding epoch **days** of its UTC-midnight instant; `none` for any other
string (the `new Date(s)` result is then `NaN` for our inputs). -/
def jsParseDateDays (s : String) : Option Int :=
  match splitOnHyphens s.data with
  | [ys, ms, ds] =>
      if isDigitRun ys 4 ∧ isDigitRun ms 2 ∧ isDigitRun ds 2 then
        let y := digitsToNat ys
        let m := digitsToNat ms
        let d := digitsToNat ds
        if 1 ≤ m ∧ m ≤ 12 ∧ 1 ≤ d ∧ d ≤ daysInMonth y m then
          some (daysFromCivil (y : Int) (m : Int) (d : Int))
        else none
      else none
  | _ => none

/-- Epoch milliseconds of the parsed instant. -/
def jsParseDateMs (s : String) : Option Int :=
  (jsParseDateDays s).map (fun d => d * 86400000)

/-- Epoch milliseconds of local midnight of local calendar day
`localDate` (epoch days) in a zone `tzOffsetMin` minutes east of UTC:
this is the value of `today.setHours(0,0,0,0)`. -/
def localMidnightMs (localDate tzOffsetMin : Int) : Int :=
  localDate * 86400000 - tzOffsetMin * 60000

/-- `isOverdue(deadline)` (lines 298–304).  `!deadline` short-circuits the
empty string; otherwise `new Date(deadline) < today` compares epoch
milliseconds, and a `NaN` (unparseable) left side makes the comparison
false.  `todayMidnightMs` is the instant `today` holds after
`setHours(0,0,0,0)`. -/
def isOverdue (deadline : String) (todayMidnightMs : Int) : Bool :=
  if deadline = "" then false
  else
    match jsParseDateMs deadline with
    | none => false
    | some t => decide (t < todayMidnightMs)

/-! ## Concrete states used as test inputs -/

/-- An annotation store holding one record, on the derived key of
sub-node `"1"` of parent `"k"`. -/
def exStepMap : StepMap :=
  mapSet mapEmpty (getSubRectKey "k" "1") ⟨some "2099-01-01", none⟩

/-- A sub-node store with a single sub-node `"1"` under parent `"k"`. -/
def exSubMap : SubMap :=
  mapSet mapEmpty "k" [{ id := "1", label := "A", x := 5, y := 6 }]

/-- Two consecutive creates under parent `"k"` with the same `Date.now()`
value 5 (two calls in the same millisecond). -/
def exCreateTwice : StepMap × SubMap :=
  let p1 := createSubRect mapEmpty mapEmpty "k" "A" "" "" 5
  createSubRect p1.1 p1.2 "k" "B" "" "" 5

/-- A string not containing the key separator `'-'`.  All eight diagram
ids of the source (`'main'`, `'base'`, `'general'`, `'integration'`,
`'medical'`, `'flutter'`, `'chatbot'`, `'customization'`) satisfy it;
many step ids (e.g. `'base-module'`, `'ui-ux'`) do not. -/
def sepFree (s : String) : Prop := ('-' : Char) ∉ s.data

instance (s : String) : Decidable (sepFree s) := by
  unfold sepFree
  infer_instance

/-! ## Basic lemmas about the map model -/

theorem mapSet_same {α : Type} (m : String → Option α) (k : String) (v : α) :
    mapSet m k v k = some v := by
  simp [mapSet]

theorem mapSet_other {α : Type} (m : String → Option α) (k j : String) (v : α)
    (h : j ≠ k) : mapSet m k v j = m j := by
  simp [mapSet, h]

theorem mapDel_same {α : Type} (m : String → Option α) (k : String) :
    mapDel m k k = none := by
  simp [mapDel]

theorem mapDel_other {α : Type} (m : String → Option α) (k j : String)
    (h : j ≠ k) : mapDel m k j = m j := by
  simp [mapDel, h]

/-- The sub-node-store invariant of the spec: every parent key present in
the mapping maps to a non-empty sequence. -/
def SubMapInv (s : SubMap) : Prop :=
  ∀ k l, s k = some l → l ≠ []

theorem subMapInv_empty : SubMapInv mapEmpty := by
  intro k l h
  exact Option.noConfusion h

theorem subMapInv_mapSet (s : SubMap) (hInv : SubMapInv s) (k : String)
    (l : List SubRectangle) (hl : l ≠ []) : SubMapInv (mapSet s k l) := by
  intro j l' hj
  by_cases hjk : j = k
  · subst hjk
    rw [mapSet_same] at hj
    cases Option.some.inj hj
    exact hl
  · rw [mapSet_other s k j l hjk] at hj
    exact hInv j l' hj

theorem subMapInv_mapDel (s : SubMap) (hInv : SubMapInv s) (k : String) :
    SubMapInv (mapDel s k) := by
  intro j l' hj
  by_cases hjk : j = k
  · subst hjk
    rw [mapDel_same] at hj
    exact Option.noConfusion hj
  · rw [mapDel_other s k j hjk] at hj
    exact hInv j l' hj

/-! ## Claims -/

/-- C5: for every node key, an upsert whose two inputs are empty (or
whitespace-only) after trimming removes any existing entry for that key:
the key is afterwards absent from the store, `get` returns the empty
record, and in particular a prior `upsert(k, "2099-01-01", "")` followed by
`upsert(k, "", "")` leaves `k` absent. -/
theorem handleSave_empty_is_delete (m : StepMap) (module stepId d n : String)
    (hd : jsTrim d = "") (hn : jsTrim n = "") :
    handleSave m module stepId d n (getStepKey module stepId) = none ∧
    getStepData (handleSave m module stepId d n) module stepId = {} ∧
    handleSave (handleSave m module stepId "2099-01-01" "") module stepId d n
      (getStepKey module stepId) = none := by
  refine ⟨?_, ?_, ?_⟩ <;> simp [handleSave, getStepData, mapDel, hd, hn]

/-- Witness for C5, at the whitespace-only inputs of the spec scenario. -/
theorem handleSave_empty_is_delete_witness :
    handleSave mapEmpty "main" "start" "  " "" (getStepKey "main" "start") = none ∧
    handleSave (handleSave mapEmpty "main" "start" "2099-01-01" "") "main" "start" "  " ""
      (getStepKey "main" "start") = none :=
  ⟨(handleSave_empty_is_delete mapEmpty "main" "start" "  " "" (by decide) (by decide)).1,
   (handleSave_empty_is_delete mapEmpty "main" "start" "  " "" (by decide) (by decide)).2.2⟩

/-- C7: when at least one of the two inputs is non-empty after trimming,
`upsert` followed by `get` returns exactly the trimmed values, with a
field absent exactly when its input trimmed to empty. -/
theorem handleSave_get_roundtrip (m : StepMap) (module stepId d n : String)
    (h : ¬(jsTrim d = "" ∧ jsTrim n = "")) :
    getStepData (handleSave m module stepId d n) module stepId =
      { deadline := if jsTrim d = "" then none else some (jsTrim d)
        notes := if jsTrim n = "" then none else some (jsTrim n) } := by
  by_cases hd : jsTrim d = "" <;> by_cases hn : jsTrim n = "" <;>
    simp [handleSave, getStepData, mapSet, hd, hn] at h ⊢

/-- Witness for C7, the spec's round-trip scenario (with padding on the
deadline input to exercise trimming). -/
theorem handleSave_get_roundtrip_witness :
    getStepData (handleSave mapEmpty "main" "start" " 2024-01-01 " "kickoff") "main" "start" =
      { deadline := some "2024-01-01", notes := some "kickoff" } :=
  (handleSave_get_roundtrip mapEmpty "main" "start" " 2024-01-01 " "kickoff"
    (by decide)).trans (by decide)

/-- C10: the two persisted snapshots are read inside one `try` block,
annotation store first.  If parsing the annotation snapshot throws, the
sub-node snapshot is never applied — both stores start empty — even when
that snapshot is well-formed; a parse failure on the sub-node snapshot
leaves the already-loaded annotation data intact. -/
theorem loadFromStorage_order (keys : List String) (d : StepMap) (s : SubMap) :
    loadFromStorage (some ParseOutcome.throws) (some (ParseOutcome.ok s)) =
      (mapEmpty, mapEmpty) ∧
    loadFromStorage (some (ParseOutcome.ok (keys, d))) (some ParseOutcome.throws) =
      ((if hasSomeKey keys then d else mapEmpty), mapEmpty) ∧
    loadFromStorage (some (ParseOutcome.ok (keys, d))) (some (ParseOutcome.ok s)) =
      ((if hasSomeKey keys then d else mapEmpty), s) :=
  ⟨rfl, rfl, rfl⟩

/-- C1 counterexample: deleting sub-node `"1"` of parent `"k"` empties the
parent's sequence (and removes the parent key), but the derived annotation
record under `getSubRectKey "k" "1"` survives in the annotation store —
`handleDeleteSubRect` never touches `stepData`. -/
theorem deleteSubRect_keeps_annotation_cex :
    (deleteSubRectOp exStepMap exSubMap "k" "1").2 "k" = none ∧
    (deleteSubRectOp exStepMap exSubMap "k" "1").1 (getSubRectKey "k" "1") =
      some { deadline := some "2099-01-01", notes := none } :=
  ⟨by decide, by decide⟩

/-- C1 (amended): `delete(parentKey, subId)` removes that sub-node from
the parent's sequence, keeps the remaining sub-nodes in their original
relative order, removes the parent entry when the sequence becomes empty,
leaves every other parent key unchanged — and leaves the annotation store
entirely unchanged (the derived annotation record is *not* removed). -/
theorem deleteSubRect_spec (sd : StepMap) (s : SubMap) (k i : String) :
    (deleteSubRectOp sd s k i).1 = sd ∧
    ((deleteSubRectOp sd s k i).2 k =
      if (((s k).getD []).filter (fun sr => sr.id ≠ i)).length = 0 then none
      else some (((s k).getD []).filter (fun sr => sr.id ≠ i))) ∧
    (((s k).getD []).filter (fun sr => sr.id ≠ i)).Sublist ((s k).getD []) ∧
    (∀ sr ∈ ((s k).getD []).filter (fun sr => sr.id ≠ i), sr.id ≠ i) ∧
    (∀ j, j ≠ k → (deleteSubRectOp sd s k i).2 j = s j) := by
  refine ⟨rfl, ?_, List.filter_sublist _, ?_, ?_⟩
  · simp only [deleteSubRectOp, handleDeleteSubRect]
    by_cases h : (((s k).getD []).filter (fun sr => sr.id ≠ i)).length = 0
    · rw [if_pos h, if_pos h]
      exact mapDel_same s k
    · rw [if_neg h, if_neg h]
      exact mapSet_same s k _
  · intro sr hsr
    simpa using (List.mem_filter.mp hsr).2
  · intro j hj
    simp only [deleteSubRectOp, handleDeleteSubRect]
    by_cases h : (((s k).getD []).filter (fun sr => sr.id ≠ i)).length = 0
    · rw [if_pos h]
      exact mapDel_other s k j hj
    · rw [if_neg h]
      exact mapSet_other s k j _ hj

/-- Witness for C1 (amended), on the concrete one-sub-node state. -/
theorem deleteSubRect_spec_witness :
    (deleteSubRectOp exStepMap exSubMap "k" "1").1 = exStepMap ∧
    (deleteSubRectOp exStepMap exSubMap "k" "1").2 "other" = exSubMap "other" :=
  ⟨(deleteSubRect_spec exStepMap exSubMap "k" "1").1,
   (deleteSubRect_spec exStepMap exSubMap "k" "1").2.2.2.2 "other" (by decide)⟩

/-- C2 counterexample: dragging a sub-node id under a parent key that is
absent from the mapping *creates* an entry whose sequence is empty
(`existing = prev[stepKey] || []` followed by an unconditional spread),
so the drag operation does not preserve the non-empty-sequence
invariant. -/
theorem subMapInv_drag_cex :
    SubMapInv mapEmpty ∧
    (handleSubRectDrag mapEmpty "k" "1" 5 5) "k" = some [] :=
  ⟨subMapInv_empty, by decide⟩

/-- C2 (amended): the non-empty-sequence invariant is preserved by create,
delete and resolvePlacement unconditionally, and by drag and update
whenever the dragged/updated parent key is present in the mapping; a drag
or update addressed to an absent parent key instead inserts an empty
sequence for it. -/
theorem subMapInv_preserved (sd : StepMap) (s : SubMap) (hInv : SubMapInv s)
    (k i label d n : String) (now : Nat) (x y ax ay aw : Int) :
    SubMapInv (deleteSubRectOp sd s k i).2 ∧
    SubMapInv (createSubRect sd s k label d n now).2 ∧
    SubMapInv (resolvePlacement s k ax ay aw) ∧
    (s k ≠ none → SubMapInv (handleSubRectDrag s k i x y)) ∧
    (s k ≠ none → SubMapInv (updateSubRect sd s k i label d n).2) := by
  refine ⟨?_, ?_, ?_, ?_, ?_⟩
  · simp only [deleteSubRectOp, handleDeleteSubRect]
    by_cases h : (((s k).getD []).filter (fun sr => sr.id ≠ i)).length = 0
    · rw [if_pos h]
      exact subMapInv_mapDel s hInv k
    · rw [if_neg h]
      refine subMapInv_mapSet s hInv k _ ?_
      intro hnil
      exact h (by simp only [hnil, List.length_nil])
  · by_cases hl : jsTrim label = ""
    · simp only [createSubRect, if_pos hl]
      exact hInv
    · simp only [createSubRect, if_neg hl]
      exact subMapInv_mapSet s hInv k _ (by simp)
  · simp only [resolvePlacement]
    by_cases h : ((s k).getD []).length > 0 ∧
        ((s k).getD []).any (fun sr => sr.x = 0 ∧ sr.y = 0)
    · rw [if_pos h]
      refine subMapInv_mapSet s hInv k _ ?_
      intro hnil
      have := h.1
      rw [← List.length_mapIdx (l := (s k).getD [])
        (f := fun idx sr =>
          if sr.x = 0 ∧ sr.y = 0 then
            { sr with x := ax + aw + 30, y := ay + (idx : Int) * 90 }
          else sr), hnil] at this
      simp at this
    · rw [if_neg h]
      exact hInv
  · intro hk
    obtain ⟨l0, hl0⟩ := Option.ne_none_iff_exists'.mp hk
    simp only [handleSubRectDrag, hl0, Option.getD_some]
    refine subMapInv_mapSet s hInv k _ ?_
    simp [hInv k l0 hl0]
  · intro hk
    obtain ⟨l0, hl0⟩ := Option.ne_none_iff_exists'.mp hk
    by_cases hl : jsTrim label = ""
    · simp only [updateSubRect, if_pos hl]
      exact hInv
    · simp only [updateSubRect, if_neg hl, hl0, Option.getD_some]
      refine subMapInv_mapSet s hInv k _ ?_
      simp [hInv k l0 hl0]

/-- Witness for C2 (amended), on the concrete one-sub-node state. -/
theorem subMapInv_preserved_witness :
    SubMapInv (handleSubRectDrag exSubMap "k" "1" 7 8) ∧
    SubMapInv (deleteSubRectOp exStepMap exSubMap "k" "1").2 := by
  have hInv : SubMapInv exSubMap := by
    intro j l hj
    by_cases hjk : j = "k"
    · subst hjk
      rw [show exSubMap "k" = some [{ id := "1", label := "A", x := 5, y := 6 }] from rfl] at hj
      cases Option.some.inj hj
      simp
    · rw [show exSubMap j = mapEmpty j from mapSet_other _ _ _ _ hjk] at hj
      exact Option.noConfusion hj
  have h := subMapInv_preserved exStepMap exSubMap hInv "k" "1" "L" "" "" 5 7 8 0 0 180
  exact ⟨h.2.2.2.1 (by decide), h.1⟩

/-- C4 counterexample: immediately after `create("main-flutter-screens",
"Login Screen", "", "")` on empty stores, the stored position is
`(600, 400)` — not the `(0, 0)` sentinel the claim requires. -/
theorem createSubRect_position_cex :
    (((createSubRect mapEmpty mapEmpty "main-flutter-screens" "Login Screen" "" ""
        1700000000000).2 "main-flutter-screens").getD []).map (fun sr => (sr.x, sr.y)) =
      [((600 : Int), (400 : Int))] := by decide

/-- C4 (amended): a newly created SubNode is appended with position
`(600 + 200·n, 400 + 80·n)` where `n` is the parent's prior sub-node
count — a default placement that is never the `(0,0)` "not yet placed"
sentinel. -/
theorem createSubRect_position (sd : StepMap) (s : SubMap) (k label d n : String)
    (now : Nat) (h : jsTrim label ≠ "") :
    ∃ sub : SubRectangle,
      (createSubRect sd s k label d n now).2 k = some (((s k).getD []) ++ [sub]) ∧
      sub.x = 600 + (((s k).getD []).length : Int) * 200 ∧
      sub.y = 400 + (((s k).getD []).length : Int) * 80 ∧
      ¬(sub.x = 0 ∧ sub.y = 0) := by
  simp only [createSubRect, if_neg h]
  refine ⟨_, mapSet_same s k _, rfl, rfl, ?_⟩
  intro hc
  obtain ⟨h1, h2⟩ := hc
  simp only [] at h1 h2
  omega

/-- Witness for C4 (amended), on empty stores. -/
theorem createSubRect_position_witness :
    ∃ sub : SubRectangle,
      (createSubRect mapEmpty mapEmpty "main-flutter-screens" "Login Screen" "" "" 42).2
          "main-flutter-screens" =
        some ((((mapEmpty : SubMap) "main-flutter-screens").getD []) ++ [sub]) ∧
      sub.x = 600 + ((((mapEmpty : SubMap) "main-flutter-screens").getD []).length : Int) * 200 ∧
      sub.y = 400 + ((((mapEmpty : SubMap) "main-flutter-screens").getD []).length : Int) * 80 ∧
      ¬(sub.x = 0 ∧ sub.y = 0) :=
  createSubRect_position mapEmpty mapEmpty "main-flutter-screens" "Login Screen" "" "" 42
    (by decide)

/-- C8 counterexample: two creates under the same parent during the same
millisecond (`Date.now()` returning 5 both times) produce two sub-nodes
with the *same* id `"5"` — the assigned id is not unique within the
parent's sub-node list. -/
theorem createSubRect_duplicate_id_cex :
    ((exCreateTwice.2 "k").getD []).map SubRectangle.id = ["5", "5"] ∧
    ¬(((exCreateTwice.2 "k").getD []).map SubRectangle.id).Nodup :=
  ⟨by decide, by decide⟩

/-- C8 (amended): create is a no-op on both stores when the label is empty
after trimming; otherwise it appends a SubNode whose id is the decimal
string of the current `Date.now()` timestamp to the end of the parent's
sequence (creating the sequence if absent), and that id occurs exactly
once in the list provided no existing sub-node already carries the same
timestamp string. -/
theorem createSubRect_spec (sd : StepMap) (s : SubMap) (k label d n : String) (now : Nat) :
    (jsTrim label = "" → createSubRect sd s k label d n now = (sd, s)) ∧
    (jsTrim label ≠ "" →
      ∃ sub : SubRectangle,
        (createSubRect sd s k label d n now).2 k = some (((s k).getD []) ++ [sub]) ∧
        sub.id = toString now ∧
        sub.label = jsTrim label ∧
        ((∀ sr ∈ (s k).getD [], sr.id ≠ toString now) →
          (((s k).getD []) ++ [sub]).countP (fun sr => sr.id = toString now) = 1)) := by
  constructor
  · intro h
    simp only [createSubRect, if_pos h]
  · intro h
    simp only [createSubRect, if_neg h]
    refine ⟨_, mapSet_same s k _, rfl, rfl, ?_⟩
    intro hfresh
    rw [List.countP_append]
    have h0 : (((s k).getD []).countP (fun sr => sr.id = toString now)) = 0 := by
      rw [List.countP_eq_zero]
      intro sr hsr
      simpa using hfresh sr hsr
    rw [h0]
    simp

/-- Witness for C8 (amended): the spec's whitespace-label scenario really
is a no-op on both stores. -/
theorem createSubRect_spec_witness :
    createSubRect mapEmpty mapEmpty "k" "  " "x" "y" 7 = (mapEmpty, mapEmpty) :=
  (createSubRect_spec mapEmpty mapEmpty "k" "  " "x" "y" 7).1 (by decide)

/-! ## String lemmas for key injectivity -/

/-- Splitting at a separator character is unambiguous when the part before
the separator does not contain it. -/
theorem append_sep_inj (sep : Char) :
    ∀ a b x y : List Char, sep ∉ a → sep ∉ b →
      a ++ sep :: x = b ++ sep :: y → a = b ∧ x = y := by
  intro a
  induction a with
  | nil =>
    intro b x y _ hb h
    cases b with
    | nil =>
      refine ⟨rfl, ?_⟩
      simpa using h
    | cons d bs =>
      rw [List.nil_append, List.cons_append] at h
      injection h with h1 h2
      subst h1
      exact absurd (List.mem_cons_self _ _) hb
  | cons c as ih =>
    intro b x y ha hb h
    cases b with
    | nil =>
      rw [List.cons_append, List.nil_append] at h
      injection h with h1 h2
      subst h1
      exact absurd (List.mem_cons_self _ _) ha
    | cons d bs =>
      rw [List.cons_append, List.cons_append] at h
      injection h with h1 h2
      have ha' : sep ∉ as := fun hm => ha (List.mem_cons_of_mem _ hm)
      have hb' : sep ∉ bs := fun hm => hb (List.mem_cons_of_mem _ hm)
      obtain ⟨e1, e2⟩ := ih bs x y ha' hb' h2
      exact ⟨by rw [h1, e1], e2⟩

/-! ## resolvePlacement lemmas -/

theorem resolvePlacement_length (s : SubMap) (key : String) (ax ay aw : Int) :
    (((resolvePlacement s key ax ay aw) key).getD []).length =
      ((s key).getD []).length := by
  simp only [resolvePlacement]
  by_cases g : ((s key).getD []).length > 0 ∧
      ((s key).getD []).any (fun sr => sr.x = 0 ∧ sr.y = 0)
  · rw [if_pos g, mapSet_same, Option.getD_some, List.length_mapIdx]
  · rw [if_neg g]

theorem resolvePlacement_get (s : SubMap) (key : String) (ax ay aw : Int)
    (i : Nat) (h : i < ((s key).getD []).length)
    (h2 : i < (((resolvePlacement s key ax ay aw) key).getD []).length) :
    (((resolvePlacement s key ax ay aw) key).getD []).get ⟨i, h2⟩ =
      (if (((s key).getD []).get ⟨i, h⟩).x = 0 ∧ (((s key).getD []).get ⟨i, h⟩).y = 0 then
        { ((s key).getD []).get ⟨i, h⟩ with x := ax + aw + 30, y := ay + (i : Int) * 90 }
      else ((s key).getD []).get ⟨i, h⟩) := by
  by_cases g : ((s key).getD []).length > 0 ∧
      ((s key).getD []).any (fun sr => sr.x = 0 ∧ sr.y = 0)
  · have hmain : ((resolvePlacement s key ax ay aw) key).getD [] =
        ((s key).getD []).mapIdx (fun idx sr =>
          if sr.x = 0 ∧ sr.y = 0 then
            { sr with x := ax + aw + 30, y := ay + (idx : Int) * 90 }
          else sr) := by
      simp only [resolvePlacement]
      rw [if_pos g, mapSet_same, Option.getD_some]
    rw [List.get_of_eq hmain, List.get_mapIdx _ _ i h]
  · have hmain : ((resolvePlacement s key ax ay aw) key).getD [] = (s key).getD [] := by
      simp only [resolvePlacement]
      rw [if_neg g]
    have hlen : 0 < ((s key).getD []).length := Nat.lt_of_le_of_lt (Nat.zero_le i) h
    have hany : ¬ ((s key).getD []).any (fun sr => sr.x = 0 ∧ sr.y = 0) :=
      fun hh => g ⟨hlen, hh⟩
    have hns : ¬((((s key).getD []).get ⟨i, h⟩).x = 0 ∧
        (((s key).getD []).get ⟨i, h⟩).y = 0) := by
      intro hc
      exact hany (List.any_eq_true.mpr ⟨_, List.get_mem _ i h, by simpa using hc⟩)
    rw [List.get_of_eq hmain, if_neg hns]

/-! ## Date arithmetic -/

theorem overdue_arith (D T off : Int) (h0 : 0 ≤ off) (h1 : off < 1440) :
    (D * 86400000 < T * 86400000 - off * 60000) ↔ D < T := by
  constructor
  · intro h
    have h2 : D * 86400000 < T * 86400000 := by nlinarith
    exact lt_of_mul_lt_mul_right h2 (by norm_num)
  · intro h
    have h2 : D + 1 ≤ T := Int.lt_iff_add_one_le.mp h
    have h3 : (D + 1) * 86400000 ≤ T * 86400000 :=
      mul_le_mul_of_nonneg_right h2 (by norm_num)
    nlinarith

/-- C3 counterexample: the separator `'-'` is not escaped, so distinct
(diagramId, nodeId) pairs can produce the same node key, and distinct
(parentKey, subId) pairs the same sub-node key; moreover the program's own
step ids (cited lines 1361–1371, e.g. `'ui-ux'`, `'flutter-screens'`)
contain the separator. -/
theorem getKey_collision_cex :
    (getStepKey "a" "b-c" = getStepKey "a-b" "c" ∧
      ¬((("a" : String), ("b-c" : String)) = (("a-b" : String), ("c" : String)))) ∧
    (getSubRectKey "x-sub" "1" = getSubRectKey "x" "sub-1" ∧
      ¬((("x-sub" : String), ("1" : String)) = (("x" : String), ("sub-1" : String)))) ∧
    ¬ sepFree "flutter-screens" :=
  ⟨⟨by decide, by decide⟩, ⟨by decide, by decide⟩, by decide⟩

/-- C3 (amended): key derivation is deterministic (it is a function of the
pair), and it is injective only under a separator restriction: node keys
are injective when the *diagram ids* contain no `'-'` (as all eight
diagram ids of the program do — step ids are then recovered past the
first separator), and sub-node keys are injective when the *sub ids* contain no
`'-'` (as the `Date.now()`-derived decimal ids do); without that
restriction distinct pairs can collide. -/
theorem getKey_injective_restricted :
    (∀ m1 s1 m2 s2 : String, m1 = m2 → s1 = s2 → getStepKey m1 s1 = getStepKey m2 s2) ∧
    (∀ m1 s1 m2 s2 : String, sepFree m1 → sepFree m2 →
      getStepKey m1 s1 = getStepKey m2 s2 → m1 = m2 ∧ s1 = s2) ∧
    (∀ p1 i1 p2 i2 : String, sepFree i1 → sepFree i2 →
      getSubRectKey p1 i1 = getSubRectKey p2 i2 → p1 = p2 ∧ i1 = i2) := by
  refine ⟨?_, ?_, ?_⟩
  · intro m1 s1 m2 s2 hm hs
    rw [hm, hs]
  · intro m1 s1 m2 s2 hm1 hm2 h
    have hd := congrArg String.data h
    simp only [getStepKey, String.data_append, List.append_assoc,
      List.singleton_append] at hd
    have hd' : m1.data ++ '-' :: s1.data = m2.data ++ '-' :: s2.data := by
      simpa using hd
    obtain ⟨e1, e2⟩ := append_sep_inj '-' m1.data m2.data s1.data s2.data hm1 hm2 hd'
    exact ⟨String.ext e1, String.ext e2⟩
  · intro p1 i1 p2 i2 hi1 hi2 h
    have hd := congrArg (fun t : String => t.data.reverse) h
    simp only [getSubRectKey, String.data_append, List.reverse_append,
      List.append_assoc] at hd
    have hd' : i1.data.reverse ++ '-' :: ('b' :: 'u' :: 's' :: '-' :: p1.data.reverse) =
        i2.data.reverse ++ '-' :: ('b' :: 'u' :: 's' :: '-' :: p2.data.reverse) := by
      simpa using hd
    have hri1 : ('-' : Char) ∉ i1.data.reverse := by
      simpa [List.mem_reverse] using hi1
    have hri2 : ('-' : Char) ∉ i2.data.reverse := by
      simpa [List.mem_reverse] using hi2
    obtain ⟨e1, e2⟩ := append_sep_inj '-' i1.data.reverse i2.data.reverse _ _ hri1 hri2 hd'
    have ep : p1.data.reverse = p2.data.reverse := by
      injection e2 with _ e2
      injection e2 with _ e2
      injection e2 with _ e2
      injection e2 with _ e2
    exact ⟨String.ext (List.reverse_injective ep),
      String.ext (List.reverse_injective e1)⟩

/-- Witness for C3 (amended), at the program's own diagram/step ids and a
timestamp-style sub id. -/
theorem getKey_injective_restricted_witness :
    (("flutter" : String) = "flutter" ∧ ("flutter-screens" : String) = "flutter-screens") ∧
    (("flutter-flutter-screens" : String) = "flutter-flutter-screens" ∧
      ("1700000000000" : String) = "1700000000000") :=
  ⟨getKey_injective_restricted.2.1 "flutter" "flutter-screens" "flutter" "flutter-screens"
      (by decide) (by decide) rfl,
    getKey_injective_restricted.2.2 "flutter-flutter-screens" "1700000000000"
      "flutter-flutter-screens" "1700000000000" (by decide) (by decide) rfl⟩

/-- C9: resolvePlacement preserves the sequence's length and rewrites
exactly the sub-nodes still at the `(0,0)` sentinel, giving them the
anchor-derived position with the index-dependent vertical offset
`anchor.y + i·90`; a sub-node whose position is already non-sentinel is
left unchanged, by this call and by a repeated call. -/
theorem resolvePlacement_spec (s : SubMap) (key : String) (ax ay aw : Int)
    (i : Nat) (h : i < ((s key).getD []).length)
    (h2 : i < (((resolvePlacement s key ax ay aw) key).getD []).length)
    (h3 : i < (((resolvePlacement (resolvePlacement s key ax ay aw) key ax ay aw)
      key).getD []).length) :
    (((resolvePlacement s key ax ay aw) key).getD []).length =
      ((s key).getD []).length ∧
    ((((s key).getD []).get ⟨i, h⟩).x = 0 ∧ (((s key).getD []).get ⟨i, h⟩).y = 0 →
      (((resolvePlacement s key ax ay aw) key).getD []).get ⟨i, h2⟩ =
        { ((s key).getD []).get ⟨i, h⟩ with
            x := ax + aw + 30, y := ay + (i : Int) * 90 }) ∧
    (¬((((s key).getD []).get ⟨i, h⟩).x = 0 ∧ (((s key).getD []).get ⟨i, h⟩).y = 0) →
      (((resolvePlacement s key ax ay aw) key).getD []).get ⟨i, h2⟩ =
        ((s key).getD []).get ⟨i, h⟩ ∧
      (((resolvePlacement (resolvePlacement s key ax ay aw) key ax ay aw)
          key).getD []).get ⟨i, h3⟩ = ((s key).getD []).get ⟨i, h⟩) := by
  refine ⟨resolvePlacement_length s key ax ay aw, ?_, ?_⟩
  · intro hsent
    rw [resolvePlacement_get s key ax ay aw i h h2, if_pos hsent]
  · intro hns
    have e1 : (((resolvePlacement s key ax ay aw) key).getD []).get ⟨i, h2⟩ =
        ((s key).getD []).get ⟨i, h⟩ := by
      rw [resolvePlacement_get s key ax ay aw i h h2, if_neg hns]
    refine ⟨e1, ?_⟩
    rw [resolvePlacement_get (resolvePlacement s key ax ay aw) key ax ay aw i
      (by rw [resolvePlacement_length]; exact h) h3]
    rw [show ((((resolvePlacement s key ax ay aw) key).getD []).get
        ⟨i, by rw [resolvePlacement_length]; exact h⟩) =
        (((resolvePlacement s key ax ay aw) key).getD []).get ⟨i, h2⟩ from rfl, e1,
      if_neg hns]

/-- Witness for C9, on the concrete one-sub-node state (position `(5,6)`,
already placed, survives two resolvePlacement calls). -/
theorem resolvePlacement_spec_witness :
    (((resolvePlacement exSubMap "k" 610 480 180) "k").getD []).length =
      ((exSubMap "k").getD []).length ∧
    (((resolvePlacement (resolvePlacement exSubMap "k" 610 480 180) "k" 610 480 180)
        "k").getD []).get ⟨0, by decide⟩ = ((exSubMap "k").getD []).get ⟨0, by decide⟩ :=
  ⟨(resolvePlacement_spec exSubMap "k" 610 480 180 0 (by decide) (by decide) (by decide)).1,
   ((resolvePlacement_spec exSubMap "k" 610 480 180 0 (by decide) (by decide)
      (by decide)).2.2 (by decide)).2⟩

/-- C6 counterexample: in a local zone west of UTC (here UTC-5, offset
-300 minutes), a deadline equal to *today's* local calendar date is
reported overdue: `"2000-01-01"` parses to epoch day 10957 (UTC midnight),
and with today's local date also 10957 `isOverdue` returns `true`, though
the deadline's date is not strictly before today's date. -/
theorem isOverdue_west_zone_cex :
    jsParseDateDays "2000-01-01" = some 10957 ∧
    isOverdue "2000-01-01" (localMidnightMs 10957 (-300)) = true ∧
    ¬((10957 : Int) < 10957) :=
  ⟨by decide, by decide, by decide⟩

/-- C6 (amended): an absent or unparseable deadline is never overdue; the
deadline parses to UTC midnight of its calendar date while "today" is
truncated to *local* midnight, so the claimed "true iff the deadline's
date is strictly before today's date" holds exactly in zones at or east
of UTC (offset ≥ 0); in zones strictly west of UTC a deadline equal to
today's date is also reported overdue. -/
theorem isOverdue_spec (deadline : String) (today tz ddlDays : Int) :
    (∀ t : Int, isOverdue "" t = false) ∧
    (jsParseDateDays deadline = none → ∀ t : Int, isOverdue deadline t = false) ∧
    (jsParseDateDays deadline = some ddlDays → 0 ≤ tz → tz < 1440 →
      (isOverdue deadline (localMidnightMs today tz) = true ↔ ddlDays < today)) ∧
    (jsParseDateDays deadline = some ddlDays → tz < 0 →
      isOverdue deadline (localMidnightMs ddlDays tz) = true) := by
  refine ⟨fun t => rfl, ?_, ?_, ?_⟩
  · intro hp t
    by_cases he : deadline = ""
    · rw [he]
      rfl
    · simp only [isOverdue, if_neg he, jsParseDateMs, hp, Option.map_none']
  · intro hp h0 h1
    have hne : deadline ≠ "" := by
      intro he
      rw [he, show jsParseDateDays "" = none from rfl] at hp
      exact Option.noConfusion hp
    simp only [isOverdue, if_neg hne, jsParseDateMs, hp, Option.map_some',
      localMidnightMs, decide_eq_true_eq]
    exact overdue_arith ddlDays today tz h0 h1
  · intro hp htz
    have hne : deadline ≠ "" := by
      intro he
      rw [he, show jsParseDateDays "" = none from rfl] at hp
      exact Option.noConfusion hp
    simp only [isOverdue, if_neg hne, jsParseDateMs, hp, Option.map_some',
      localMidnightMs, decide_eq_true_eq]
    have : tz * 60000 < 0 := mul_neg_of_neg_of_pos htz (by norm_num)
    linarith

/-- Witness for C6 (amended): at UTC (offset 0), `"2000-01-01"` is overdue
once today's local date is past epoch day 10957 — the spec's own example. -/
theorem isOverdue_spec_witness :
    isOverdue "2000-01-01" (localMidnightMs 10958 0) = true :=
  ((isOverdue_spec "2000-01-01" 10958 0 10957).2.2.1 (by decide) (by decide)
    (by decide)).mpr (by decide)

end Clinic
